import Mathlib

/-!
Verification development for the GitLane peer-sync subsystem: a shallow
embedding of the offline push queue (`src/utils/pushQueue` module), the
zustand store's `flushPushQueue`, the peer HTTP server (`peerServer.js`:
wire framer, route dispatcher, server lifecycle), and the client-side sync
operations (`gitOps.js`: `fetchFromPeer`, `pushToPeer`), together with
theorems settling the specification's claims about them.

Conventions: JavaScript promises are embedded as `Except String α`
(rejected-with-message / resolved); JavaScript numbers that the code only
ever uses as non-negative integers are embedded as `Nat`; byte streams are
`List Nat` (each element < 256 where it matters); JavaScript strings at the
wire-framing layer are lists of Unicode code points (`List Nat`), since the
framer concatenates per-chunk UTF-8 decodings and the decoding with
replacement characters is the crux of chunk handling.
-/

namespace GitLane

/-! ### Offline push queue
Embeds the AsyncStorage-backed queue module (`enqueueRepo`, `dequeueRepo`,
`getQueue`, `clearQueue`).  AsyncStorage itself and `JSON.parse`/
`JSON.stringify` are external JS builtins; the stored slot
`gitlane_push_queue` is modelled at the value level: it is either absent
(`getItem` returns null), holds a string that does not parse as JSON
(`JSON.parse` throws, caught by `getQueue`), or holds the serialization of
an entry list (serialize/parse round-trip on well-formed lists is the
builtin's contract). -/

/-- One queue item `{ id, dir, repoName, queuedAt }`. -/
structure QueueEntry where
  id : String
  dir : String
  repoName : String
  queuedAt : Nat
deriving DecidableEq, Repr

/-- The persisted `gitlane_push_queue` AsyncStorage slot, at the value level. -/
inductive QueueStore where
  /-- `AsyncStorage.getItem` returns `null`. -/
  | absent
  /-- the slot holds a string `JSON.parse` rejects. -/
  | corrupt
  /-- the slot holds the JSON serialization of `q`. -/
  | stored (q : List QueueEntry)
deriving DecidableEq, Repr

/-- `getQueue()`: parse the stored slot, returning `[]` when the slot is
absent or when parsing throws (the `try`/`catch` in the source). -/
def getQueue : QueueStore → List QueueEntry
  | .absent => []
  | .corrupt => []
  | .stored q => q

/-- `enqueueRepo(dir, repoName)`.  `now` stands for `Date.now()`; the source
uses it both for `id` (stringified) and `queuedAt`.  If an entry with the
same `dir` already exists the function returns without touching storage. -/
def enqueueRepo (now : Nat) (dir repoName : String) (s : QueueStore) : QueueStore :=
  let q := getQueue s
  if q.any (fun e => e.dir == dir) then s
  else .stored (q ++ [⟨toString now, dir, repoName, now⟩])

/-- `dequeueRepo(dir)`: filter out every entry for `dir` and persist the
filtered list. -/
def dequeueRepo (dir : String) (s : QueueStore) : QueueStore :=
  .stored ((getQueue s).filter (fun e => !(e.dir == dir)))

/-- One iteration of the loop in the store's `flushPushQueue`: try the push
primitive on the entry's `dir`; on success dequeue it and bump the success
counter, on rejection (the `catch`) bump the failure counter.  `push`
models the settled outcome of `pushRepo(item.dir, token)` — the token is
read once at flush time, so the outcome is a function of the dir. -/
def flushStep (push : String → Bool) (acc : Nat × Nat × QueueStore)
    (item : QueueEntry) : Nat × Nat × QueueStore :=
  if push item.dir then (acc.1 + 1, acc.2.1, dequeueRepo item.dir acc.2.2)
  else (acc.1, acc.2.1 + 1, acc.2.2)

/-- `flushPushQueue()` from the zustand store: snapshot the queue, attempt
every entry in order, return `{succeeded, failed}` together with the final
storage state. -/
def flushPushQueue (push : String → Bool) (s : QueueStore) :
    (Nat × Nat) × QueueStore :=
  let r := (getQueue s).foldl (flushStep push) (0, 0, s)
  ((r.1, r.2.1), r.2.2)

/-! ### Server lifecycle state
`peerServer.js` keeps two module-level variables `_server` and `_serverDir`.
The TCP handle itself is opaque; only null-vs-bound matters to the
lifecycle functions, so the handle is modelled as `Option Unit`. -/

/-- The module-level pair `(_server, _serverDir)`. -/
structure ServerState where
  server : Option Unit
  serverDir : Option String
deriving DecidableEq, Repr

/-- `startServer(dir, ...)`: `if (_server) return;` then bind. -/
def startServer (dir : String) (st : ServerState) : ServerState :=
  if st.server.isSome then st else ⟨some (), some dir⟩

/-- `stopServer()`: close and null both variables when a server exists,
otherwise do nothing. -/
def stopServer (st : ServerState) : ServerState :=
  if st.server.isSome then ⟨none, none⟩ else st

/-- `isServerRunning()`. -/
def isServerRunning (st : ServerState) : Bool :=
  st.server.isSome

/-- States reachable by the lifecycle functions: `_serverDir` is only ever
set together with `_server`. -/
def ServerState.inv (st : ServerState) : Prop :=
  st.server = none → st.serverDir = none

/-! ### Byte/string primitives
The socket handler receives byte chunks and converts each one with
`chunk.toString('utf8')` before appending it to the accumulation string.
`Buffer.toString('utf8')` is the WHATWG replacement decoder: an invalid or
truncated sequence becomes U+FFFD, resuming at the first byte that failed
to continue the sequence.  JS strings are modelled as lists of Unicode code
points (the decoder never produces lone surrogates, so code points and
UTF-16 semantics agree on everything the framer does). -/

/-- Is `c` a UTF-8 continuation byte? -/
def isCont (c : Nat) : Bool :=
  0x80 ≤ c && c ≤ 0xBF

/-- Valid range of the first continuation byte of a 3-byte sequence led by
`b` (the lead byte constrains it to exclude overlong forms and
surrogates). -/
def cont3Ok (b c : Nat) : Bool :=
  if b = 0xE0 then 0xA0 ≤ c && c ≤ 0xBF
  else if b = 0xED then 0x80 ≤ c && c ≤ 0x9F
  else isCont c

/-- Valid range of the first continuation byte of a 4-byte sequence led by
`b`. -/
def cont4Ok (b c : Nat) : Bool :=
  if b = 0xF0 then 0x90 ≤ c && c ≤ 0xBF
  else if b = 0xF4 then 0x80 ≤ c && c ≤ 0x8F
  else isCont c

/-- `Buffer.toString('utf8')`: WHATWG UTF-8 decoding with replacement. -/
def utf8DecodeReplace : List Nat → List Nat
  | [] => []
  | b :: rest =>
    if b < 0x80 then b :: utf8DecodeReplace rest
    else if b < 0xC2 then 0xFFFD :: utf8DecodeReplace rest
    else if b < 0xE0 then
      match rest with
      | [] => [0xFFFD]
      | c :: rest2 =>
        if isCont c then ((b - 0xC0) * 64 + (c - 0x80)) :: utf8DecodeReplace rest2
        else 0xFFFD :: utf8DecodeReplace (c :: rest2)
    else if b < 0xF0 then
      match rest with
      | [] => [0xFFFD]
      | c :: rest2 =>
        if cont3Ok b c then
          match rest2 with
          | [] => [0xFFFD]
          | d :: rest3 =>
            if isCont d then
              ((b - 0xE0) * 4096 + (c - 0x80) * 64 + (d - 0x80)) :: utf8DecodeReplace rest3
            else 0xFFFD :: utf8DecodeReplace (d :: rest3)
        else 0xFFFD :: utf8DecodeReplace (c :: rest2)
    else if b < 0xF5 then
      match rest with
      | [] => [0xFFFD]
      | c :: rest2 =>
        if cont4Ok b c then
          match rest2 with
          | [] => [0xFFFD]
          | d :: rest3 =>
            if isCont d then
              match rest3 with
              | [] => [0xFFFD]
              | e :: rest4 =>
                if isCont e then
                  ((b - 0xF0) * 262144 + (c - 0x80) * 4096 + (d - 0x80) * 64 + (e - 0x80))
                    :: utf8DecodeReplace rest4
                else 0xFFFD :: utf8DecodeReplace (e :: rest4)
            else 0xFFFD :: utf8DecodeReplace (d :: rest3)
        else 0xFFFD :: utf8DecodeReplace (c :: rest2)
    else 0xFFFD :: utf8DecodeReplace rest

/-- UTF-8 encoding of one code point (`Buffer.byteLength(s, 'utf8')` counts
these). -/
def utf8EncodeChar (cp : Nat) : List Nat :=
  if cp < 0x80 then [cp]
  else if cp < 0x800 then [0xC0 + cp / 64, 0x80 + cp % 64]
  else if cp < 0x10000 then [0xE0 + cp / 4096, 0x80 + (cp / 64) % 64, 0x80 + cp % 64]
  else [0xF0 + cp / 262144, 0x80 + (cp / 4096) % 64, 0x80 + (cp / 64) % 64, 0x80 + cp % 64]

/-- `Buffer.byteLength(s, 'utf8')` on a code-point string. -/
def utf8ByteLength (s : List Nat) : Nat :=
  s.foldl (fun n cp => n + (utf8EncodeChar cp).length) 0

/-- Code points of a Lean string literal (used to write the ASCII wire
constants of the source). -/
def strCps (s : String) : List Nat :=
  s.data.map Char.toNat

/-- Rebuild a Lean `String` from code points (all code points produced by
the decoder are valid scalar values). -/
def cpsToString (l : List Nat) : String :=
  String.mk (l.map Char.ofNat)

/-- Does `pat` occur at the head of `l`? -/
def leadsWith : List Nat → List Nat → Bool
  | [], _ => true
  | _ :: _, [] => false
  | p :: ps, b :: bs => p == b && leadsWith ps bs

/-- `String.indexOf(pat)`: index of the first occurrence. -/
def seqAt (pat : List Nat) : List Nat → Option Nat
  | [] => if pat.isEmpty then some 0 else none
  | b :: rest =>
    if leadsWith pat (b :: rest) then some 0
    else (seqAt pat rest).map (· + 1)

/-- `String.split(sep)` worker (the fuel is an upper bound on the number of
separator occurrences; `splitSeq` supplies `length + 1`). -/
def splitSeqGo (sep : List Nat) : Nat → List Nat → List (List Nat)
  | 0, l => [l]
  | fuel + 1, l =>
    match seqAt sep l with
    | none => [l]
    | some i => l.take i :: splitSeqGo sep fuel (l.drop (i + sep.length))

/-- `String.split(sep)` for a non-empty separator. -/
def splitSeq (sep l : List Nat) : List (List Nat) :=
  splitSeqGo sep (l.length + 1) l

/-- JS whitespace (`String.trim`, regex `\s`), restricted to the ASCII and
Latin-1 members actually possible in HTTP header text. -/
def isJsWs (c : Nat) : Bool :=
  c == 0x09 || c == 0x0A || c == 0x0B || c == 0x0C || c == 0x0D || c == 0x20 || c == 0xA0

/-- `String.trim()`. -/
def trimJs (l : List Nat) : List Nat :=
  ((l.dropWhile isJsWs).reverse.dropWhile isJsWs).reverse

/-- `String.toLowerCase()` (ASCII range; header names here are ASCII). -/
def lowerAscii (l : List Nat) : List Nat :=
  l.map (fun c => if 0x41 ≤ c && c ≤ 0x5A then c + 32 else c)

/-- Decimal digit run at the head of `l` (regex `\d+`, `parseInt` digits). -/
def takeDigits (l : List Nat) : List Nat :=
  l.takeWhile (fun c => 0x30 ≤ c && c ≤ 0x39)

/-- Value of a digit run. -/
def digitsToNat (ds : List Nat) : Nat :=
  ds.foldl (fun n c => n * 10 + (c - 0x30)) 0

/-- `parseInt(s, 10)`: skip whitespace, optional sign, then a decimal digit
run; `none` models `NaN`. -/
def jsParseInt (l : List Nat) : Option Int :=
  match l.dropWhile isJsWs with
  | 0x2D :: rest =>
    let ds := takeDigits rest
    if ds.isEmpty then none else some (-(digitsToNat ds : Int))
  | 0x2B :: rest =>
    let ds := takeDigits rest
    if ds.isEmpty then none else some (digitsToNat ds : Int)
  | t =>
    let ds := takeDigits t
    if ds.isEmpty then none else some (digitsToNat ds : Int)

/-- Is `c` a hexadecimal digit? -/
def isHexDigit (c : Nat) : Bool :=
  (0x30 ≤ c && c ≤ 0x39) || (0x41 ≤ c && c ≤ 0x46) || (0x61 ≤ c && c ≤ 0x66)

/-- Value of a hexadecimal digit. -/
def hexVal (c : Nat) : Nat :=
  if 0x30 ≤ c && c ≤ 0x39 then c - 0x30
  else if 0x41 ≤ c && c ≤ 0x46 then c - 0x41 + 10
  else c - 0x61 + 10

/-- Tokenization step of `decodeURIComponent`: a `%XX` pair becomes a byte,
anything else stays a character. -/
inductive PctTok where
  | byte (b : Nat)
  | chr (c : Nat)
deriving DecidableEq, Repr

/-- Tokenize a percent-encoded string. -/
def pctToks : List Nat → List PctTok
  | 0x25 :: h1 :: h2 :: rest =>
    if isHexDigit h1 && isHexDigit h2 then .byte (hexVal h1 * 16 + hexVal h2) :: pctToks rest
    else .chr 0x25 :: pctToks (h1 :: h2 :: rest)
  | c :: rest => .chr c :: pctToks rest
  | [] => []

/-- Assemble tokens: maximal `%XX` byte runs are UTF-8 decoded. -/
def pctAssemble : List PctTok → List Nat → List Nat
  | [], acc => utf8DecodeReplace acc.reverse
  | .byte b :: rest, acc => pctAssemble rest (b :: acc)
  | .chr c :: rest, acc => utf8DecodeReplace acc.reverse ++ c :: pctAssemble rest []

/-- `decodeURIComponent`.  Divergence from JS, on inputs no claim
exercises: JS throws a `URIError` on a malformed `%` sequence or invalid
UTF-8 in the decoded bytes; the model passes a lone `%` through and decodes
byte runs with replacement. -/
def decodeURIComp (l : List Nat) : List Nat :=
  pctAssemble (pctToks l) []

/-! ### Base64
`Buffer.from(bytes).toString('base64')` on the encode side (pack transport)
and `RNFS.writeFile(path, data, 'base64')` on the decode side, which
rejects malformed input. -/

/-- Character of one 6-bit group. -/
def b64Char (n : Nat) : Nat :=
  if n < 26 then 65 + n
  else if n < 52 then 97 + (n - 26)
  else if n < 62 then 48 + (n - 52)
  else if n = 62 then 0x2B
  else 0x2F

/-- Standard base64 encoding with padding, three input bytes at a time. -/
def b64EncodeGo : List Nat → List Nat
  | [] => []
  | [a] => [b64Char (a / 4), b64Char (a % 4 * 16), 0x3D, 0x3D]
  | [a, b] => [b64Char (a / 4), b64Char (a % 4 * 16 + b / 16), b64Char (b % 16 * 4), 0x3D]
  | a :: b :: c :: rest =>
    b64Char (a / 4) :: b64Char (a % 4 * 16 + b / 16)
      :: b64Char (b % 16 * 4 + c / 64) :: b64Char (c % 64) :: b64EncodeGo rest

/-- `Buffer.from(bytes).toString('base64')`. -/
def b64Encode (bytes : List Nat) : String :=
  cpsToString (b64EncodeGo bytes)

/-- Value of one base64 alphabet character. -/
def b64Val (c : Nat) : Option Nat :=
  if 65 ≤ c && c ≤ 90 then some (c - 65)
  else if 97 ≤ c && c ≤ 122 then some (c - 97 + 26)
  else if 48 ≤ c && c ≤ 57 then some (c - 48 + 52)
  else if c = 0x2B then some 62
  else if c = 0x2F then some 63
  else none

/-- Strict base64 decoding; `none` on malformed input. -/
def b64DecodeGo : List Nat → Option (List Nat)
  | [] => some []
  | [a, b, 0x3D, 0x3D] => do
    let va ← b64Val a
    let vb ← b64Val b
    pure [va * 4 + vb / 16]
  | [a, b, c, 0x3D] => do
    let va ← b64Val a
    let vb ← b64Val b
    let vc ← b64Val c
    pure [va * 4 + vb / 16, vb % 16 * 16 + vc / 4]
  | a :: b :: c :: d :: rest => do
    let va ← b64Val a
    let vb ← b64Val b
    let vc ← b64Val c
    let vd ← b64Val d
    let tail ← b64DecodeGo rest
    pure ((va * 4 + vb / 16) :: (vb % 16 * 16 + vc / 4) :: (vc % 4 * 64 + vd) :: tail)
  | _ => none

/-- Decode the base64 payload a request carried. -/
def b64Decode (s : String) : Option (List Nat) :=
  b64DecodeGo (s.data.map Char.toNat)

/-! ### Wire Framer
`parseRequest(raw)` from `peerServer.js` and the per-connection `data`
handler inside `startServer`. -/

/-- The fully-assembled request `parseRequest` hands to `dispatch`.
`query` and `headers` are kept in assignment order; a JS object lookup is
last-assignment-wins (`lastLookup`). -/
structure Request where
  method : String
  pathname : String
  query : List (String × String)
  headers : List (String × String)
  body : String
  contentLength : Option Int
deriving DecidableEq, Repr

/-- JS object field lookup over recorded assignments: the last assignment
to a key wins. -/
def lastLookup (l : List (String × String)) (k : String) : Option String :=
  (l.reverse.find? (fun p => p.1 == k)).map (·.2)

/-- `"\r\n\r\n"`. -/
def crlfcrlf : List Nat := [13, 10, 13, 10]

/-- `"\r\n"`. -/
def crlf : List Nat := [13, 10]

/-- Header lines to the headers object: for each line after the request
line, split at the first `':'` (skipped when the colon is absent or at
index 0), lowercasing and trimming the name and trimming the value. -/
def parseHeaderLines (lines : List (List Nat)) : List (String × String) :=
  lines.foldl (fun hs line =>
    match seqAt [0x3A] line with
    | some i =>
      if 0 < i then
        hs ++ [(cpsToString (trimJs (lowerAscii (line.take i))),
                cpsToString (trimJs (line.drop (i + 1))))]
      else hs
    | none => hs) []

/-- Query-string pairs: split on `'&'`, drop empty pieces
(`.filter(Boolean)`), split each piece at its first `'='`
(`const [k, v = ''] = p.split('=')`), URL-decode key and value. -/
def parseQueryStr (queryStr : List Nat) : List (String × String) :=
  ((splitSeq [0x26] queryStr).filter (fun p => !p.isEmpty)).foldl (fun qs p =>
    let kv := splitSeq [0x3D] p
    qs ++ [(cpsToString (decodeURIComp (kv.headD [])),
            cpsToString (decodeURIComp (kv.getD 1 [])))]) []

/-- `parseRequest(raw)`: returns `null` until the header terminator has
arrived, then parses request line, headers, `Content-Length`, path, query
and body. -/
def parseRequest (raw : List Nat) : Option Request :=
  match seqAt crlfcrlf raw with
  | none => none
  | some headerEnd =>
    let headerSection := raw.take headerEnd
    let body := raw.drop (headerEnd + 4)
    let lines := splitSeq crlf headerSection
    let firstParts := splitSeq [0x20] (lines.headD [])
    let method := firstParts.headD []
    let headers := parseHeaderLines (lines.drop 1)
    let clRaw :=
      match lastLookup headers "content-length" with
      | none => strCps "0"
      | some v => if v = "" then strCps "0" else strCps v
    let contentLength := jsParseInt clRaw
    let fullPath :=
      match firstParts.get? 1 with
      | none => [0x2F]
      | some p => if p.isEmpty then [0x2F] else p
    let pqParts := splitSeq [0x3F] fullPath
    some
      { method := cpsToString method
        pathname := cpsToString (pqParts.headD [])
        query := parseQueryStr (pqParts.getD 1 [])
        headers := headers
        body := cpsToString body
        contentLength := contentLength }

/-- Per-connection framing state: the accumulation string and the requests
handed to `dispatch` so far. -/
structure ConnState where
  buffer : List Nat
  dispatched : List Request
deriving DecidableEq, Repr

/-- The regex search `headerSection.match(/content-length:\s*(\d+)/i)`:
scan for the first position where the case-insensitive literal, optional
whitespace and at least one digit all match, returning the digit run's
value. -/
def clScan : List Nat → Option Nat
  | [] => none
  | c :: rest =>
    if leadsWith (strCps "content-length:") (lowerAscii (c :: rest)) then
      let ds := takeDigits ((c :: rest).drop 15 |>.dropWhile isJsWs)
      if ds.isEmpty then clScan rest else some (digitsToNat ds)
    else clScan rest

/-- One firing of the socket `data` handler: append the UTF-8 decoding of
the chunk, wait for the header terminator, wait until the re-encoded byte
count of the accumulated body reaches `Content-Length`, then parse, clear
the buffer and dispatch. -/
def onData (st : ConnState) (chunk : List Nat) : ConnState :=
  let buffer := st.buffer ++ utf8DecodeReplace chunk
  match seqAt crlfcrlf buffer with
  | none => ⟨buffer, st.dispatched⟩
  | some headerEnd =>
    let headerSection := buffer.take headerEnd
    let contentLength := (clScan headerSection).getD 0
    let bodyReceived := utf8ByteLength (buffer.drop (headerEnd + 4))
    if bodyReceived < contentLength then ⟨buffer, st.dispatched⟩
    else
      match parseRequest buffer with
      | none => ⟨[], st.dispatched⟩
      | some req => ⟨[], st.dispatched ++ [req]⟩

/-- Feed a connection a sequence of byte chunks from a fresh state. -/
def feedChunks (chunks : List (List Nat)) : ConnState :=
  chunks.foldl onData ⟨[], []⟩

/-! ### Version Store
Modelled from the spec: the version-control storage engine behind
`isomorphic-git` is an external collaborator (spec §2, §6) whose interface
is `listBranchNames`, `resolveRef`, `logAncestry`, `buildPackfile`,
`indexPackfile`, `forceWriteRef`, `hasCommit`.  A repository is its commit
objects (the object store, keyed by id) and its branch refs. -/

/-- A commit object: its id and its parents' ids. -/
structure Commit where
  oid : String
  parents : List String
deriving DecidableEq, Repr

/-- Repository state: object store plus branch refs (`refs/heads/*`,
stored under their short names). -/
structure Repo where
  commits : List Commit
  refs : List (String × String)
deriving DecidableEq, Repr

/-- `resolveRef(dir, name) -> sha | fails(NotFound)` (spec §6);
`git.resolveRef`. -/
def resolveRef (r : Repo) (name : String) : Option String :=
  (r.refs.find? (fun p => p.1 == name)).map (·.2)

/-- `hasCommit(dir, sha)` (spec §6); `git.readCommit` succeeding. -/
def hasCommit (r : Repo) (sha : String) : Bool :=
  r.commits.any (fun c => c.oid == sha)

/-- Object-store lookup by id. -/
def findCommit (r : Repo) (sha : String) : Option Commit :=
  r.commits.find? (fun c => c.oid == sha)

/-- Modelled from the spec: the graph walk of `logAncestry(dir, ref,
maxDepth)` (§6), behind `git.log({fs, dir, ref, depth})`.  Emits at most
`depth` distinct reachable commit ids.  The first argument is termination
fuel only (the frontier can grow); `logAncestry` supplies enough of it. -/
def walkAncestry (r : Repo) : Nat → Nat → List String → List String → List String
  | 0, _, _, acc => acc.reverse
  | fuel + 1, depth, frontier, acc =>
    if depth ≤ acc.length then acc.reverse
    else
      match frontier with
      | [] => acc.reverse
      | s :: rest =>
        if acc.contains s then walkAncestry r fuel depth rest acc
        else
          match findCommit r s with
          | none => walkAncestry r fuel depth rest acc
          | some c => walkAncestry r fuel depth (rest ++ c.parents) (s :: acc)

/-- Fuel bound for `walkAncestry`: one frontier entry for the root plus one
per parent edge of every emitted commit, per depth level, is generous. -/
def walkFuel (r : Repo) (depth : Nat) : Nat :=
  (r.commits.foldl (fun n c => n + c.parents.length + 1) 1) * (depth + 1)

/-- Modelled from the spec: `logAncestry(dir, ref, maxDepth)` (§6).  An
unresolvable ref yields the empty walk (the spec gives `logAncestry` no
failure outcome; only `resolveRef` fails). -/
def logAncestry (r : Repo) (ref : String) (depth : Nat) : List String :=
  match resolveRef r ref with
  | none => []
  | some s => walkAncestry r (walkFuel r depth) depth [s] []

/-- Length-prefixed serialization of a string (pack payload wire form). -/
def encodeStr (s : String) : List Nat :=
  s.length :: s.data.map Char.toNat

/-- Serialization of one commit object. -/
def encodeCommit (c : Commit) : List Nat :=
  encodeStr c.oid ++ c.parents.length :: (c.parents.map encodeStr).flatten

/-- Modelled from the spec: `buildPackfile(dir, [commitId])` (§6), behind
`git.packObjects({oids, write: false})`.  The packfile payload is an
opaque byte blob bundling the selected objects (§3); the model serializes
the commit objects found in the store, in oid-list order. -/
def buildPackfile (r : Repo) (oids : List String) : List Nat :=
  ((oids.filterMap (findCommit r)).map encodeCommit).flatten

/-- Deserialize a length-prefixed string. -/
def decodeStrP : List Nat → Option (String × List Nat)
  | [] => none
  | n :: rest =>
    if n ≤ rest.length then some (cpsToString (rest.take n), rest.drop n) else none

/-- Deserialize `k` length-prefixed strings. -/
def decodeNStrs : Nat → List Nat → Option (List String × List Nat)
  | 0, l => some ([], l)
  | k + 1, l =>
    match decodeStrP l with
    | none => none
    | some (s, rest) => (decodeNStrs k rest).map (fun pr => (s :: pr.1, pr.2))

/-- Deserialize one commit object. -/
def decodeCommitP (l : List Nat) : Option (Commit × List Nat) :=
  match decodeStrP l with
  | none => none
  | some (oid, rest) =>
    match rest with
    | [] => none
    | k :: rest2 => (decodeNStrs k rest2).map (fun pr => (⟨oid, pr.1⟩, pr.2))

/-- Deserialize a whole pack blob (fuel = input length suffices, every
commit consumes at least one byte). -/
def packDecodeGo : Nat → List Nat → Option (List Commit)
  | _, [] => some []
  | 0, _ :: _ => none
  | fuel + 1, a :: l =>
    match decodeCommitP (a :: l) with
    | none => none
    | some (c, rest) => (packDecodeGo fuel rest).map (c :: ·)

/-- Is this byte blob a well-formed pack, and of which objects? -/
def packDecode (l : List Nat) : Option (List Commit) :=
  packDecodeGo l.length l

/-- Add one decoded object to the store unless its id is already present. -/
def addStep (cs : List Commit) (c : Commit) : List Commit :=
  if cs.any (fun x => x.oid == c.oid) then cs else cs ++ [c]

/-- Add decoded objects to the store, skipping ids already present. -/
def addObjects (r : Repo) (objs : List Commit) : Repo :=
  { r with commits := objs.foldl addStep r.commits }

/-- Modelled from the spec: `indexPackfile(dir, bytes)` (§6), behind
`git.indexPack`, with the §3 invariant that a blob is decodable only when
well-formed — indexing rejects anything else. -/
def indexPack (r : Repo) (bytes : List Nat) : Except String Repo :=
  match packDecode bytes with
  | none => .error "Could not parse packfile"
  | some objs => .ok (addObjects r objs)

/-- `forceWriteRef(dir, name, sha)` (spec §6); `git.writeRef({ref:
refs/heads/name, value: sha, force: true})`.  Modelled from the spec: the
ref map afterwards binds `name` to `sha` and leaves every other ref
unchanged (the spec fixes the map semantics, not the entry order). -/
def forceWriteRef (r : Repo) (name sha : String) : Repo :=
  { r with refs := (r.refs.filter (fun p => !(p.1 == name))) ++ [(name, sha)] }

/-! ### Route Dispatcher
The four handlers and `dispatch` from `peerServer.js`.  `respond` writes
one JSON message and ends the connection; a response is modelled as its
status line plus the structured body it serializes. -/

/-- The JSON bodies the routes serialize. -/
inductive RespBody where
  | health (ok : Bool) (repoName : String)
  | refsList (refs : List (String × String))
  | packBody (pack : String) (ref : String) (commits : Nat)
  | errBody (error : String)
  | receiveOk (ref sha : String)
deriving DecidableEq, Repr

/-- One `respond(socket, status, statusText, data)` write. -/
structure Resp where
  status : Nat
  statusText : String
  body : RespBody
deriving DecidableEq, Repr

/-- A settled handler: either the responses it wrote, or the message of
the exception that rejected its promise (nothing written — every `respond`
in the handlers is a terminal statement of its control path). -/
abbrev HandlerResult := Except String (Repo × List Resp)

/-- `handleHealth`: repo name is the bound directory's final `/` segment. -/
def handleHealth (dir : String) (r : Repo) : HandlerResult :=
  .ok (r, [⟨200, "OK", .health true (((dir.splitOn "/").getLastD ""))⟩])

/-- `handleRefs`: list branches, resolve each, drop failures. -/
def handleRefs (r : Repo) : HandlerResult :=
  let branches := r.refs.map (·.1)
  let refs := branches.filterMap (fun name => (resolveRef r name).map (fun sha => (name, sha)))
  .ok (r, [⟨200, "OK", .refsList refs⟩])

/-- `query.ref || 'HEAD'`: the requested ref, falling back when the query
parameter is absent or empty (both are JS-falsy). -/
def packRef (query : List (String × String)) : String :=
  match lastLookup query "ref" with
  | none => "HEAD"
  | some v => if v = "" then "HEAD" else v

/-- `handlePack`: `query.ref || 'HEAD'` (absent or empty falls back), walk
up to 1000 commits, 404 when the walk is empty, else base64 the packfile
of exactly the walked oids. -/
def handlePack (r : Repo) (query : List (String × String)) : HandlerResult :=
  let ref := packRef query
  let commits := logAncestry r ref 1000
  if commits.length = 0 then
    .ok (r, [⟨404, "Not Found", .errBody "No commits on branch"⟩])
  else
    let pack := b64Encode (buildPackfile r commits)
    .ok (r, [⟨200, "OK", .packBody pack ref commits.length⟩])

/-- String content scanner for the flat JSON parser: JSON string with no
escapes (a backslash makes the payload count as unsupported/invalid). -/
def jpStrGo : List Char → List Char → Option (String × List Char)
  | [], _ => none
  | '"' :: rest, acc => some (String.mk acc.reverse, rest)
  | '\\' :: _, _ => none
  | c :: rest, acc => jpStrGo rest (c :: acc)

/-- JSON whitespace skipper. -/
def jpSkipWs (l : List Char) : List Char :=
  l.dropWhile (fun c => c == ' ' || c == '\t' || c == '\n' || c == '\r')

/-- Parse one JSON string literal. -/
def jpString : List Char → Option (String × List Char)
  | '"' :: rest => jpStrGo rest []
  | _ => none

/-- The result of `JSON.parse` on a request body, to the extent the
protocol exercises it: a flat object with string fields, or a parse
failure. -/
inductive ParsedBody where
  | invalid
  | obj (fields : List (String × String))
deriving DecidableEq, Repr

/-- Parse `"k":"v"` pairs separated by commas up to the closing brace
(fuel-bounded; the input length bounds the number of pairs). -/
def jpPairs : Nat → List Char → List (String × String) →
    Option (List (String × String))
  | 0, _, _ => none
  | fuel + 1, l, acc =>
    match jpString (jpSkipWs l) with
    | none => none
    | some (k, r1) =>
      match jpSkipWs r1 with
      | ':' :: r2 =>
        match jpString (jpSkipWs r2) with
        | none => none
        | some (v, r3) =>
          match jpSkipWs r3 with
          | ',' :: r4 => jpPairs fuel r4 (acc ++ [(k, v)])
          | '}' :: r4 => if (jpSkipWs r4).isEmpty then some (acc ++ [(k, v)]) else none
          | _ => none
      | _ => none

/-- Modelled from the spec: `JSON.parse` (a JS builtin), restricted to the
flat string-field objects the receive route exchanges (§6: `{ref:string,
sha:string, pack:base64string}`); anything else is a parse failure for the
model, as it would be a validation failure for the route. -/
def jsonParseFlat (s : String) : ParsedBody :=
  match jpSkipWs s.data with
  | '{' :: r =>
    match jpSkipWs r with
    | '}' :: r2 => if (jpSkipWs r2).isEmpty then .obj [] else .invalid
    | _ =>
      match jpPairs (s.length + 1) r [] with
      | some fs => .obj fs
      | none => .invalid
  | _ => .invalid

/-- JS truthiness of a looked-up string field (`undefined` and `''` are
falsy). -/
def truthy : Option String → Bool
  | none => false
  | some s => !(s == "")

/-- `handleReceive`: parse the JSON body (400 on failure), require all of
`ref`/`sha`/`pack` truthy (400 otherwise), then write the base64-decoded
pack into the object store (`RNFS.writeFile(..., 'base64')` rejects
malformed base64), index it (`git.indexPack`), force-write the ref. -/
def handleReceive (r : Repo) (body : String) : HandlerResult :=
  match jsonParseFlat body with
  | .invalid => .ok (r, [⟨400, "Bad Request", .errBody "Invalid JSON body"⟩])
  | .obj fields =>
    let refF := lastLookup fields "ref"
    let shaF := lastLookup fields "sha"
    let packF := lastLookup fields "pack"
    if truthy refF && truthy shaF && truthy packF then
      let ref := refF.getD ""
      let sha := shaF.getD ""
      let pack := packF.getD ""
      match b64Decode pack with
      | none => .error "Invalid base64 data"
      | some bytes =>
        match indexPack r bytes with
        | .error e => .error e
        | .ok r2 => .ok (forceWriteRef r2 ref sha, [⟨200, "OK", .receiveOk ref sha⟩])
    else
      .ok (r, [⟨400, "Bad Request", .errBody "Missing ref/sha/pack"⟩])

/-- `dispatch(socket, req)`.  On the `try`/`catch` in the source: each
matched route is invoked as `return handleX(...)` without `await`, and in
JavaScript an async function's `try` guards only the synchronous
evaluation of the returned expression, not the settling of the returned
promise — so a handler rejection passes through to `dispatch`'s own
promise and the `catch` (the 500 path) never observes it.  The embedding
therefore forwards each handler's settled result unchanged; the `catch`
covers only the synchronous route-matching code, which cannot throw. -/
def dispatch (dir : String) (r : Repo) (req : Request) : HandlerResult :=
  if req.method == "GET" && req.pathname == "/api/health" then handleHealth dir r
  else if req.method == "GET" && req.pathname == "/api/refs" then handleRefs r
  else if req.method == "GET" && req.pathname == "/api/pack" then handlePack r req.query
  else if req.method == "POST" && req.pathname == "/api/receive" then handleReceive r req.body
  else .ok (r, [⟨404, "Not Found",
    .errBody ("No route: " ++ req.method ++ " " ++ req.pathname)⟩])

/-! ### Peer Sync Protocol (client side)
`fetchFromPeer` and `pushToPeer` from `gitOps.js`, against an abstract
peer whose responses are given by an environment. -/

/-- One `{name, sha}` entry of the peer's `/api/refs` body. -/
structure PeerRef where
  name : String
  sha : String
deriving DecidableEq, Repr

/-- What the peer answered: the `/api/refs` status and parsed `refs` field
(`none` models an absent field, i.e. `!refs`), and per ref name the
`/api/pack` outcome (`none` models `!packResp.ok`, `some pack` the parsed
`pack` field). -/
structure PeerEnv where
  refsStatus : Nat
  refsBody : Option (List PeerRef)
  packResp : String → Option String

/-- `resp.ok`: status in the 2xx range. -/
def respOk (status : Nat) : Bool :=
  200 ≤ status && status < 300

/-- One iteration of the per-ref loop of `fetchFromPeer`, with its
`try`/`catch`: a commit already present short-circuits to a ref write;
otherwise a failed pack request skips the ref (`continue`), and a
rejection while writing or indexing the pack is caught, leaving the local
repository as it was. -/
def fetchStep (env : PeerEnv) (r : Repo) (ref : PeerRef) : Repo :=
  if hasCommit r ref.sha then forceWriteRef r ref.name ref.sha
  else
    match env.packResp ref.name with
    | none => r
    | some packB64 =>
      match b64Decode packB64 with
      | none => r
      | some bytes =>
        match indexPack r bytes with
        | .error _ => r
        | .ok r2 => forceWriteRef r2 ref.name ref.sha

/-- `fetchFromPeer(dir, peerUrl)`: reject on a non-2xx refs response or an
absent/empty ref list, else run the per-ref loop and return the peer's
full ref list. -/
def fetchFromPeer (env : PeerEnv) (r : Repo) : Except String (Repo × List PeerRef) :=
  if !respOk env.refsStatus then
    .error ("Peer returned " ++ toString env.refsStatus)
  else
    match env.refsBody with
    | none => .error "Peer has no branches"
    | some refs =>
      if refs.length = 0 then .error "Peer has no branches"
      else .ok (refs.foldl (fetchStep env) r, refs)

/-! ### Outbound request construction
For the timeout claim: each outbound `fetch` the sync layer performs,
as constructed by the source — URL, method, and whether the options carry
an abort-after-`ms` signal (`fetchWithTimeout` does; a bare `fetch` call
does not). -/

/-- An outbound HTTP request as constructed at its call site. -/
structure OutboundCall where
  method : String
  url : String
  timeoutMs : Option Nat
deriving DecidableEq, Repr

/-- Characters `encodeURIComponent` leaves unescaped. -/
def isUriUnreserved (c : Nat) : Bool :=
  (0x41 ≤ c && c ≤ 0x5A) || (0x61 ≤ c && c ≤ 0x7A) || (0x30 ≤ c && c ≤ 0x39) ||
    c == 0x2D || c == 0x5F || c == 0x2E || c == 0x21 || c == 0x7E ||
    c == 0x2A || c == 0x27 || c == 0x28 || c == 0x29

/-- Uppercase hexadecimal digit. -/
def hexDigitUp (n : Nat) : Nat :=
  if n < 10 then 48 + n else 55 + n

/-- `encodeURIComponent`. -/
def encodeURICom (s : String) : String :=
  cpsToString (((s.data.map Char.toNat).map (fun c =>
    if isUriUnreserved c then [c]
    else (utf8EncodeChar c).foldr
      (fun b acc => 0x25 :: hexDigitUp (b / 16) :: hexDigitUp (b % 16) :: acc) [])).flatten)

/-- The requests `fetchFromPeer` issues, in order: `GET /api/refs` then one
`GET /api/pack?ref=...` per ref it downloads — all built with bare
`fetch(url)`, no options object at all. -/
def fetchFromPeerCalls (peerUrl : String) (refNames : List String) : List OutboundCall :=
  ⟨"GET", peerUrl ++ "/api/refs", none⟩ ::
    refNames.map (fun n => ⟨"GET", peerUrl ++ "/api/pack?ref=" ++ encodeURICom n, none⟩)

/-- The request `pushToPeer` issues: `POST /api/receive` with method,
headers and body options but no signal or timeout. -/
def pushToPeerCall (peerUrl : String) : OutboundCall :=
  ⟨"POST", peerUrl ++ "/api/receive", none⟩

/-- The health probe the peer screen issues through `fetchWithTimeout(url,
{}, 4000)`, which aborts the request after the given milliseconds. -/
def peerScreenHealthCall (url : String) : OutboundCall :=
  ⟨"GET", url ++ "/api/health", some 4000⟩

/-! ## Supporting lemmas -/

/-- Splitting a count by a Boolean predicate. -/
lemma countP_split (p : QueueEntry → Bool) (l : List QueueEntry) :
    l.countP p + l.countP (fun e => !p e) = l.length := by
  induction l with
  | nil => simp
  | cons a t ih => by_cases hp : p a <;> simp [List.countP_cons, hp] <;> omega

/-- Two filters collapse to one conjunction filter. -/
lemma filter_filter_and (p q : QueueEntry → Bool) (l : List QueueEntry) :
    (l.filter p).filter q = l.filter (fun a => p a && q a) := by
  induction l with
  | nil => rfl
  | cons a t ih =>
    by_cases hp : p a <;> by_cases hq : q a <;>
      simp [List.filter_cons, hp, hq, ih]

/-- `flushStep` on an entry the push primitive handles. -/
lemma flushStep_pos (push : String → Bool) (acc : Nat × Nat × QueueStore)
    (a : QueueEntry) (hp : push a.dir = true) :
    flushStep push acc a = (acc.1 + 1, acc.2.1, dequeueRepo a.dir acc.2.2) := by
  simp [flushStep, hp]

/-- `flushStep` on an entry the push primitive rejects. -/
lemma flushStep_neg (push : String → Bool) (acc : Nat × Nat × QueueStore)
    (a : QueueEntry) (hp : push a.dir = false) :
    flushStep push acc a = (acc.1, acc.2.1 + 1, acc.2.2) := by
  simp [flushStep, hp]

/-- Counter part of the `flushPushQueue` loop: successes and failures tally
exactly the entries on which the push primitive succeeds and fails. -/
lemma flush_go_counts (push : String → Bool) (l : List QueueEntry) :
    ∀ succ fail st,
      (l.foldl (flushStep push) (succ, fail, st)).1
          = succ + l.countP (fun e => push e.dir)
        ∧ (l.foldl (flushStep push) (succ, fail, st)).2.1
          = fail + l.countP (fun e => !push e.dir) := by
  induction l with
  | nil => intro succ fail st; simp
  | cons a t ih =>
    intro succ fail st
    cases hp : push a.dir with
    | true =>
      have h := ih (succ + 1) fail (dequeueRepo a.dir st)
      rw [List.foldl_cons, flushStep_pos push _ a hp]
      constructor
      · rw [h.1, List.countP_cons]; simp [hp]; omega
      · rw [h.2, List.countP_cons]; simp [hp]
    | false =>
      have h := ih succ (fail + 1) st
      rw [List.foldl_cons, flushStep_neg push _ a hp]
      constructor
      · rw [h.1, List.countP_cons]; simp [hp]
      · rw [h.2, List.countP_cons]; simp [hp]; omega

/-- Storage part of the `flushPushQueue` loop: an entry survives exactly
when no processed entry with its `dir` succeeded. -/
lemma flush_go_store (push : String → Bool) (l : List QueueEntry) :
    ∀ succ fail st,
      getQueue ((l.foldl (flushStep push) (succ, fail, st)).2.2)
        = (getQueue st).filter
            (fun e => !(l.any (fun x => push x.dir && e.dir == x.dir))) := by
  induction l with
  | nil => intro _ _ st; simp
  | cons a t ih =>
    intro succ fail st
    cases hp : push a.dir with
    | true =>
      rw [List.foldl_cons, flushStep_pos push _ a hp, ih]
      have hd : getQueue (dequeueRepo a.dir st)
          = (getQueue st).filter (fun e => !(e.dir == a.dir)) := rfl
      rw [hd, filter_filter_and]
      congr 1
      funext e
      simp [List.any_cons, hp, Bool.and_comm]
    | false =>
      rw [List.foldl_cons, flushStep_neg push _ a hp, ih]
      congr 1
      funext e
      simp [List.any_cons, hp]

/-! ## Claims -/

/-- C6: `enqueue` is idempotent on `dir` — for every queue state and every
`dir` already present in the queue, enqueuing that `dir` again leaves the
stored queue unchanged. -/
theorem enqueueRepo_idempotent_on_dir (t : Nat) (dir repoName : String)
    (s : QueueStore) (h : (getQueue s).any (fun e => e.dir == dir) = true) :
    enqueueRepo t dir repoName s = s := by
  simp [enqueueRepo, h]

/-- C6 witness: enqueuing the same `dir` twice starting from an empty queue
is a no-op the second time, and the queue has length 1. -/
theorem enqueueRepo_idempotent_on_dir_witness :
    enqueueRepo 9 "/repos/app" "app" (enqueueRepo 5 "/repos/app" "app" QueueStore.absent)
        = enqueueRepo 5 "/repos/app" "app" QueueStore.absent
      ∧ (getQueue (enqueueRepo 5 "/repos/app" "app" QueueStore.absent)).length = 1 :=
  ⟨enqueueRepo_idempotent_on_dir 9 "/repos/app" "app"
      (enqueueRepo 5 "/repos/app" "app" QueueStore.absent) (by decide),
    by decide⟩

/-- C7: over a queue of `N` entries, `flush` attempts every entry and never
throws (it is a total function of the per-entry outcomes), returns
`{succeeded: K, failed: N - K}` where `K` counts the entries whose push
succeeds, and the remaining stored queue is exactly the failed entries in
their original relative order (`filter` preserves order). -/
theorem flushPushQueue_counts_and_remaining (push : String → Bool) (s : QueueStore) :
    (flushPushQueue push s).1.1 = (getQueue s).countP (fun e => push e.dir)
      ∧ (flushPushQueue push s).1.2
          = (getQueue s).length - (getQueue s).countP (fun e => push e.dir)
      ∧ getQueue (flushPushQueue push s).2
          = (getQueue s).filter (fun e => !push e.dir) := by
  have hc := flush_go_counts push (getQueue s) 0 0 s
  have hs := flush_go_store push (getQueue s) 0 0 s
  have htot := countP_split (fun e => push e.dir) (getQueue s)
  refine ⟨?_, ?_, ?_⟩
  · simpa [flushPushQueue] using hc.1
  · have h2 : (flushPushQueue push s).1.2
        = (getQueue s).countP (fun e => !push e.dir) := by
      simpa [flushPushQueue] using hc.2
    omega
  · have h3 : getQueue (flushPushQueue push s).2
        = (getQueue s).filter
            (fun e => !((getQueue s).any (fun x => push x.dir && e.dir == x.dir))) := by
      simpa [flushPushQueue] using hs
    rw [h3]
    apply List.filter_congr
    intro e he
    cases hp : push e.dir with
    | true =>
      have : (getQueue s).any (fun x => push x.dir && e.dir == x.dir) = true :=
        List.any_eq_true.mpr ⟨e, he, by simp [hp]⟩
      simp [this]
    | false =>
      have : (getQueue s).any (fun x => push x.dir && e.dir == x.dir) = false := by
        rw [List.any_eq_false]
        intro x hx
        cases hd : (e.dir == x.dir) with
        | true =>
          have : x.dir = e.dir := (eq_of_beq hd).symm
          simp [this, hp]
        | false => simp [hd]
      simp [this]

/-- C8: single-listener invariant — starting while a server is active is a
no-op, stopping is idempotent, and after a stop the state reports not
running with no bound directory (on states reachable by the lifecycle
functions). -/
theorem server_lifecycle_invariant (st : ServerState) (dir : String)
    (h : st.inv) :
    (isServerRunning st = true → startServer dir st = st)
      ∧ stopServer (stopServer st) = stopServer st
      ∧ isServerRunning (stopServer st) = false
      ∧ (stopServer st).serverDir = none := by
  obtain ⟨server, serverDir⟩ := st
  cases server with
  | none =>
    have hdir : serverDir = none := h rfl
    subst hdir
    simp [startServer, stopServer, isServerRunning]
  | some u =>
    simp [startServer, stopServer, isServerRunning]

/-- C8 witness: the lifecycle properties at a concretely bound server. -/
theorem server_lifecycle_invariant_witness :
    (isServerRunning (ServerState.mk (some ()) (some "/repos/app")) = true →
        startServer "/repos/other" (ServerState.mk (some ()) (some "/repos/app"))
          = ServerState.mk (some ()) (some "/repos/app"))
      ∧ stopServer (stopServer (ServerState.mk (some ()) (some "/repos/app")))
          = stopServer (ServerState.mk (some ()) (some "/repos/app"))
      ∧ isServerRunning (stopServer (ServerState.mk (some ()) (some "/repos/app"))) = false
      ∧ (stopServer (ServerState.mk (some ()) (some "/repos/app"))).serverDir = none :=
  server_lifecycle_invariant (ServerState.mk (some ()) (some "/repos/app"))
    "/repos/other" (by intro h; cases h)

/-- C10: reading the persisted queue is total at the public interface — an
absent or unparseable stored value yields the empty list rather than an
exception, and `enqueue`, `dequeue` and `flush` then operate on a
well-formed (possibly empty) queue even after storage corruption. -/
theorem getQueue_total_after_corruption :
    getQueue QueueStore.absent = []
      ∧ getQueue QueueStore.corrupt = []
      ∧ (∀ t d n, (getQueue (enqueueRepo t d n QueueStore.corrupt)).length = 1)
      ∧ (∀ d, getQueue (dequeueRepo d QueueStore.corrupt) = [])
      ∧ (∀ push, flushPushQueue push QueueStore.corrupt = ((0, 0), QueueStore.corrupt)) := by
  refine ⟨rfl, rfl, ?_, ?_, ?_⟩
  · intro t d n; rfl
  · intro d; rfl
  · intro push; rfl

/-- A valid HTTP request: `POST /x` with `Content-Length: 2` and the
two-byte body `0xC3 0xA9`, the UTF-8 encoding of `é`. -/
def c1Header : List Nat :=
  strCps "POST /x HTTP/1.1\r\ncontent-length: 2\r\n\r\n"

/-- C1: chunk-boundary invariance fails.  Fed as a single chunk, the framer
dispatches the request with body `é`.  Split between the two body bytes —
a split mid-UTF-8-code-point — each fragment is UTF-8-decoded on its own
(`chunk.toString('utf8')`), the truncated lead byte becomes U+FFFD (which
re-encodes to three bytes, satisfying the Content-Length test early), and
the framer dispatches a different request whose body is the replacement
character, with the second body byte left over in the buffer. -/
theorem framer_chunk_split_divergence :
    (feedChunks [c1Header ++ [0xC3, 0xA9]]).dispatched.map Request.body = ["é"]
      ∧ (feedChunks [c1Header ++ [0xC3], [0xA9]]).dispatched.map Request.body = ["�"]
      ∧ feedChunks [c1Header ++ [0xC3], [0xA9]] ≠ feedChunks [c1Header ++ [0xC3, 0xA9]] := by
  refine ⟨by decide, by decide, by decide⟩

/-- The `/api/receive` request of the C2 failing input, as `parseRequest`
would assemble it: a syntactically valid JSON body whose `pack` field is
not valid base64, so the handler's pack-write rejects. -/
def c2Request : Request :=
  { method := "POST"
    pathname := "/api/receive"
    query := []
    headers := [("content-length", "40")]
    body := "\x7b\"ref\":\"main\",\"sha\":\"abc\",\"pack\":\"%%%\"\x7d"
    contentLength := some 40 }

/-- C2: a rejecting handler does not produce a 500.  On this request
`handleReceive` rejects (the pack write fails), and `dispatch` settles as
that same rejection with no response written at all — the `catch` in the
source never fires because the handler promise is returned without
`await`.  The claim's promised `500 {error}` write never happens. -/
theorem dispatch_handler_rejection_uncaught :
    dispatch "/repos/app" ⟨[], []⟩ c2Request = .error "Invalid base64 data" := by
  rfl

/-- C9: none of the sync-path requests carries a timeout.  The refs and
pack requests of `fetchFromPeer` and the receive request of `pushToPeer`
are all built with a bare `fetch` — no abort signal, no timeout — while the
screens' health probe uses `fetchWithTimeout` with a 4-second abort.  A
peer that accepts the TCP connection and never answers hangs these three
calls indefinitely. -/
theorem sync_calls_have_no_timeout :
    ((fetchFromPeerCalls "http://192.168.1.7:7821" ["main"]).map OutboundCall.timeoutMs)
        = [none, none]
      ∧ (pushToPeerCall "http://192.168.1.7:7821").timeoutMs = none
      ∧ (peerScreenHealthCall "http://192.168.1.7:7821").timeoutMs = some 4000 := by
  refine ⟨by decide, rfl, rfl⟩

/-- The ancestry walk never emits more than `depth` commits: emission is
guarded by `acc.length < depth` and adds one commit. -/
lemma walkAncestry_length_le (r : Repo) (fuel : Nat) :
    ∀ depth frontier acc, acc.length ≤ depth →
      (walkAncestry r fuel depth frontier acc).length ≤ depth := by
  induction fuel with
  | zero => intro depth frontier acc h; simpa [walkAncestry] using h
  | succ n ih =>
    intro depth frontier acc h
    rw [walkAncestry.eq_def]
    dsimp only
    by_cases hd : depth ≤ acc.length
    · simpa [hd] using h
    · rw [if_neg hd]
      cases frontier with
      | nil => simpa using h
      | cons s rest =>
        dsimp only
        by_cases hs : acc.contains s
        · rw [if_pos hs]; exact ih depth rest acc h
        · rw [if_neg hs]
          cases hfc : findCommit r s with
          | none => exact ih depth rest acc h
          | some c =>
            exact ih depth (rest ++ c.parents) (s :: acc) (by simp; omega)

/-- The walked history of any ref is at most `depth` commits long. -/
lemma logAncestry_length_le (r : Repo) (ref : String) (depth : Nat) :
    (logAncestry r ref depth).length ≤ depth := by
  unfold logAncestry
  cases resolveRef r ref with
  | none => simp
  | some s => exact walkAncestry_length_le r _ depth [s] [] (by simp)

/-- C3: the `/api/pack` contract — when the requested ref (defaulting to
`HEAD`) has zero walked commits the response is a 404 whose JSON body has
an `error` field; otherwise it is a 200 whose body is `{pack, ref,
commits}` with `pack` the base64 encoding of the packfile built from
exactly the walked commits' objects and `commits` the number walked, which
is at most 1000. -/
theorem handlePack_route_contract (r : Repo) (q : List (String × String)) :
    (logAncestry r (packRef q) 1000 = [] →
      ∃ msg, handlePack r q = .ok (r, [⟨404, "Not Found", .errBody msg⟩]))
      ∧ (logAncestry r (packRef q) 1000 ≠ [] →
        handlePack r q = .ok (r,
            [⟨200, "OK",
              .packBody (b64Encode (buildPackfile r (logAncestry r (packRef q) 1000)))
                (packRef q) (logAncestry r (packRef q) 1000).length⟩])
          ∧ (logAncestry r (packRef q) 1000).length ≤ 1000) := by
  constructor
  · intro h
    exact ⟨"No commits on branch", by simp [handlePack, h]⟩
  · intro h
    have hlen : (logAncestry r (packRef q) 1000).length ≠ 0 := by
      simpa [List.length_eq_zero] using h
    exact ⟨by simp [handlePack, hlen], logAncestry_length_le r (packRef q) 1000⟩

/-- A two-commit repository used to exercise the pack route. -/
def c3Repo : Repo :=
  ⟨[⟨"aa", []⟩, ⟨"bb", ["aa"]⟩], [("main", "bb")]⟩

/-- C3 witness: on a repository whose `main` has two commits the route
returns the 200 body with the concrete base64 pack and count 2; on an
empty repository with an unknown ref it returns the 404 error body. -/
theorem handlePack_route_contract_witness :
    handlePack c3Repo [("ref", "main")]
      = .ok (c3Repo,
          [⟨200, "OK",
            .packBody (b64Encode (buildPackfile c3Repo
                (logAncestry c3Repo (packRef [("ref", "main")]) 1000)))
              (packRef [("ref", "main")])
              (logAncestry c3Repo (packRef [("ref", "main")]) 1000).length⟩])
      ∧ b64Encode (buildPackfile c3Repo
            (logAncestry c3Repo (packRef [("ref", "main")]) 1000)) = "AmJiAQJhYQJhYQA="
      ∧ (logAncestry c3Repo (packRef [("ref", "main")]) 1000).length = 2
      ∧ (∃ msg, handlePack (Repo.mk [] []) [("ref", "missing")]
          = .ok (Repo.mk [] [], [⟨404, "Not Found", .errBody msg⟩])) := by
  refine ⟨?_, by decide, by decide, ?_⟩
  · exact ((handlePack_route_contract c3Repo [("ref", "main")]).2 (by decide)).1
  · exact (handlePack_route_contract (Repo.mk [] []) [("ref", "missing")]).1 (by decide)

/-- Dropping every entry for `name` leaves nothing that matches `name`. -/
lemma any_filter_not (name : String) (l : List (String × String)) :
    (l.filter (fun p => !(p.1 == name))).any (fun p => p.1 == name) = false := by
  induction l with
  | nil => rfl
  | cons a t ih => cases h : a.1 == name <;> simp [List.filter_cons, h, ih]

/-- `find?` skips a block in which nothing matches. -/
lemma find?_append_of_any_false (name : String) (l m : List (String × String))
    (h : l.any (fun p => p.1 == name) = false) :
    (l ++ m).find? (fun p => p.1 == name) = m.find? (fun p => p.1 == name) := by
  induction l with
  | nil => rfl
  | cons a t ih =>
    rw [List.any_cons, Bool.or_eq_false_iff] at h
    simp [List.find?_cons, h.1, ih h.2]

/-- A force-written ref resolves to the written sha. -/
lemma resolveRef_forceWriteRef (r : Repo) (name sha : String) :
    resolveRef (forceWriteRef r name sha) name = some sha := by
  unfold resolveRef forceWriteRef
  rw [find?_append_of_any_false name _ _ (any_filter_not name r.refs)]
  simp [List.find?_cons]

/-- Ref writing leaves the object store untouched. -/
lemma commits_forceWriteRef (r : Repo) (name sha : String) :
    (forceWriteRef r name sha).commits = r.commits := rfl

/-- Commit lookup after a ref write. -/
lemma hasCommit_forceWriteRef (r : Repo) (name sha oid : String) :
    hasCommit (forceWriteRef r name sha) oid = hasCommit r oid := by
  unfold hasCommit
  rw [commits_forceWriteRef]

/-- After `addStep`, the added object's id is in the store. -/
lemma addStep_has (cs : List Commit) (c : Commit) :
    (addStep cs c).any (fun x => x.oid == c.oid) = true := by
  unfold addStep
  cases h : cs.any (fun x => x.oid == c.oid) with
  | true => simp [h]
  | false => simp [h, List.any_append]

/-- Folding `addStep` never removes an id already present. -/
lemma foldl_addStep_mono (objs : List Commit) :
    ∀ (cs : List Commit) (o : String), cs.any (fun x => x.oid == o) = true →
      (objs.foldl addStep cs).any (fun x => x.oid == o) = true := by
  induction objs with
  | nil => intro cs o h; simpa using h
  | cons a t ih =>
    intro cs o h
    rw [List.foldl_cons]
    apply ih
    unfold addStep
    cases hc : cs.any (fun x => x.oid == a.oid) with
    | true => simpa using h
    | false => simp [List.any_append, h]

/-- Every folded-in object's id ends up in the store. -/
lemma foldl_addStep_all (objs : List Commit) :
    ∀ cs, ∀ c ∈ objs, (objs.foldl addStep cs).any (fun x => x.oid == c.oid) = true := by
  induction objs with
  | nil => intro cs c hc; cases hc
  | cons a t ih =>
    intro cs c hc
    rw [List.foldl_cons]
    rcases List.mem_cons.mp hc with rfl | hct
    · exact foldl_addStep_mono t (addStep cs c) c.oid (addStep_has cs c)
    · exact ih (addStep cs a) c hct

/-- Indexing a pack makes each of its objects resolvable. -/
lemma hasCommit_addObjects (r : Repo) (objs : List Commit) :
    ∀ c ∈ objs, hasCommit (addObjects r objs) c.oid = true :=
  fun c hc => foldl_addStep_all objs r.commits c hc

/-- C4 (amended): on a JSON `/api/receive` body, if any of `ref`, `sha`,
`pack` is missing or empty (JS-falsy) the response is a 400 with an error
body and the repository is unchanged; if all three are present and
non-empty and the pack payload decodes, the decoded packfile's objects are
indexed into the object store, the ref is force-written to `sha`, and the
response is a 200 with `{ok:true, ref, sha}`. -/
theorem handleReceive_field_validation (r : Repo) (body : String)
    (fields : List (String × String))
    (hparse : jsonParseFlat body = .obj fields) :
    ((truthy (lastLookup fields "ref") && truthy (lastLookup fields "sha")
          && truthy (lastLookup fields "pack")) = false →
      handleReceive r body
        = .ok (r, [⟨400, "Bad Request", .errBody "Missing ref/sha/pack"⟩]))
      ∧ (∀ ref sha pack bytes objs,
          lastLookup fields "ref" = some ref → ref ≠ "" →
          lastLookup fields "sha" = some sha → sha ≠ "" →
          lastLookup fields "pack" = some pack → pack ≠ "" →
          b64Decode pack = some bytes → packDecode bytes = some objs →
            handleReceive r body
              = .ok (forceWriteRef (addObjects r objs) ref sha,
                  [⟨200, "OK", .receiveOk ref sha⟩])
            ∧ resolveRef (forceWriteRef (addObjects r objs) ref sha) ref = some sha
            ∧ ∀ c ∈ objs,
                hasCommit (forceWriteRef (addObjects r objs) ref sha) c.oid = true) := by
  constructor
  · intro hfalse
    simp [handleReceive, hparse, hfalse]
  · intro ref sha pack bytes objs h1 h1n h2 h2n h3 h3n hb hp
    have htr : (truthy (lastLookup fields "ref") && truthy (lastLookup fields "sha")
        && truthy (lastLookup fields "pack")) = true := by
      rw [h1, h2, h3]
      simp [truthy, h1n, h2n, h3n]
    refine ⟨?_, resolveRef_forceWriteRef _ _ _, fun c hc => ?_⟩
    · simp [handleReceive, hparse, h1, h2, h3, truthy, h1n, h2n, h3n, hb, indexPack, hp]
    · rw [hasCommit_forceWriteRef]
      exact hasCommit_addObjects r objs c hc

/-- C4 counterexample to the claim as stated: a body in which all three
fields are present but `ref` is the empty string gets a 400, not the
claimed 200 success path — the source tests truthiness (`!ref`), not
presence. -/
theorem handleReceive_present_empty_field_refuted :
    handleReceive (Repo.mk [] []) "\x7b\"ref\":\"\",\"sha\":\"a\",\"pack\":\"b\"\x7d"
      = .ok (Repo.mk [] [],
          [⟨400, "Bad Request", .errBody "Missing ref/sha/pack"⟩])
      ∧ jsonParseFlat "\x7b\"ref\":\"\",\"sha\":\"a\",\"pack\":\"b\"\x7d"
          = .obj [("ref", ""), ("sha", "a"), ("pack", "b")] := by
  exact ⟨rfl, by decide⟩

/-- Peer-side repository whose pack payload the C4 witness replays. -/
def c4PeerRepo : Repo :=
  ⟨[⟨"aa", []⟩, ⟨"bb", ["aa"]⟩], [("main", "bb")]⟩

/-- The base64 pack payload of the C4 witness. -/
def c4Pack : String :=
  b64Encode (buildPackfile c4PeerRepo ["bb", "aa"])

/-- The `/api/receive` JSON body of the C4 witness. -/
def c4Body : String :=
  "\x7b\"ref\":\"main\",\"sha\":\"bb\",\"pack\":\"" ++ c4Pack ++ "\"\x7d"

/-- C4 witness: a complete, non-empty body is accepted — the pack's two
commits become resolvable, `main` resolves to `bb`, and the response is
the 200 `{ok:true, ref, sha}`. -/
theorem handleReceive_field_validation_witness :
    handleReceive (Repo.mk [] []) c4Body
      = .ok (forceWriteRef (addObjects (Repo.mk [] [])
              [⟨"bb", ["aa"]⟩, ⟨"aa", []⟩]) "main" "bb",
          [⟨200, "OK", .receiveOk "main" "bb"⟩])
      ∧ resolveRef (forceWriteRef (addObjects (Repo.mk [] [])
            [⟨"bb", ["aa"]⟩, ⟨"aa", []⟩]) "main" "bb") "main" = some "bb"
      ∧ hasCommit (forceWriteRef (addObjects (Repo.mk [] [])
            [⟨"bb", ["aa"]⟩, ⟨"aa", []⟩]) "main" "bb") "aa" = true := by
  have h := (handleReceive_field_validation (Repo.mk [] []) c4Body
      [("ref", "main"), ("sha", "bb"), ("pack", c4Pack)] (by decide)).2
      "main" "bb" c4Pack (buildPackfile c4PeerRepo ["bb", "aa"])
      [⟨"bb", ["aa"]⟩, ⟨"aa", []⟩]
      (by decide) (by decide) (by decide) (by decide) (by decide) (by decide)
      (by decide) (by decide)
  exact ⟨h.1, h.2.1, h.2.2 ⟨"aa", []⟩ (by simp)⟩

/-- A ref whose individual fetch fails inside the per-ref `try`: the commit
is not already local, and either the peer's pack request fails
(`!packResp.ok`, the `continue`), or the pack write or indexing rejects
(the `catch`). -/
def refFetchFails (env : PeerEnv) (st : Repo) (ref : PeerRef) : Prop :=
  hasCommit st ref.sha = false ∧
    (env.packResp ref.name = none ∨
      ∃ p, env.packResp ref.name = some p ∧
        (b64Decode p = none ∨
          ∃ bytes, b64Decode p = some bytes ∧ packDecode bytes = none))

/-- A failing ref leaves the local repository exactly as it was. -/
lemma fetchStep_of_fails (env : PeerEnv) (st : Repo) (ref : PeerRef)
    (h : refFetchFails env st ref) : fetchStep env st ref = st := by
  obtain ⟨h1, h2⟩ := h
  rcases h2 with h2 | ⟨p, hp, hbad⟩
  · simp [fetchStep, h1, h2]
  · rcases hbad with hb | ⟨bytes, hb, hpd⟩
    · simp [fetchStep, h1, hp, hb]
    · simp [fetchStep, h1, hp, hb, indexPack, hpd]

/-- C5: `fetchFromPeer` fails when the peer reports zero refs (absent or
empty list); otherwise, on a 2xx refs response it processes every ref
through the total per-ref step — a failing ref contributes an identity
step instead of aborting the loop — and returns the peer's full ref list,
failed refs included. -/
theorem fetchFromPeer_partial_success (env : PeerEnv) (r : Repo) :
    ((env.refsBody = none ∨ env.refsBody = some []) →
      ∃ e, fetchFromPeer env r = .error e)
      ∧ (∀ refs, env.refsBody = some refs → refs ≠ [] →
          respOk env.refsStatus = true →
          fetchFromPeer env r = .ok (refs.foldl (fetchStep env) r, refs))
      ∧ (∀ st ref, refFetchFails env st ref → fetchStep env st ref = st) := by
  refine ⟨?_, ?_, fun st ref h => fetchStep_of_fails env st ref h⟩
  · intro h
    cases hok : respOk env.refsStatus with
    | false =>
      exact ⟨"Peer returned " ++ toString env.refsStatus, by simp [fetchFromPeer, hok]⟩
    | true =>
      rcases h with h | h
      · exact ⟨"Peer has no branches", by simp [fetchFromPeer, hok, h]⟩
      · exact ⟨"Peer has no branches", by simp [fetchFromPeer, hok, h]⟩
  · intro refs hrefs hne hok
    have hlen : refs.length ≠ 0 := by simpa [List.length_eq_zero] using hne
    simp [fetchFromPeer, hok, hrefs, hlen]

/-- The C5 witness environment: a healthy peer with two branches, of which
`main` transfers cleanly and the pack request for `dev` fails. -/
def c5Env : PeerEnv :=
  { refsStatus := 200
    refsBody := some [⟨"main", "bb"⟩, ⟨"dev", "cc"⟩]
    packResp := fun n =>
      if n == "main" then some (b64Encode (buildPackfile c4PeerRepo ["bb", "aa"])) else none }

/-- C5 witness: against that peer, a fetch into an empty repository
returns both refs — `main` fully transferred, `dev` failed and skipped —
and the `dev` step is the identity on the resulting repository. -/
theorem fetchFromPeer_partial_success_witness :
    fetchFromPeer c5Env (Repo.mk [] [])
      = .ok (Repo.mk [⟨"bb", ["aa"]⟩, ⟨"aa", []⟩] [("main", "bb")],
          [⟨"main", "bb"⟩, ⟨"dev", "cc"⟩])
      ∧ refFetchFails c5Env
          (Repo.mk [⟨"bb", ["aa"]⟩, ⟨"aa", []⟩] [("main", "bb")]) ⟨"dev", "cc"⟩ := by
  constructor
  · exact (fetchFromPeer_partial_success c5Env (Repo.mk [] [])).2.1
      [⟨"main", "bb"⟩, ⟨"dev", "cc"⟩] rfl (by decide) (by decide)
  · exact ⟨by decide, Or.inl (by decide)⟩

end GitLane
